import Mathlib

/-!
RPC broadcast chat hub: a model of `server.go`.

The hub of `server.go` is embedded as pure functions over an explicit hub state.

* A Go buffered channel is the list of the messages it currently buffers, oldest first,
  together with its capacity (`events`: 128, every client channel: 32).
* The registry `map[string]*ClientState` is a function from keys to optional client states.
  Go leaves the iteration order of a map unspecified; the broadcaster treats every entry
  independently of the others, so its effect is given entry by entry.
* Every critical section guarded by `mu` is one atomic transition.
* `time.Now()` is the argument `now` of the call.
* A call that would suspend on the full `events` channel reports `Status.blocked`.
* `time.Duration` is a 64-bit signed count of nanoseconds: the product that sets the timer
  of `Poll` wraps modulo `2^64`. When a `select` finds both its receive and its timer ready,
  Go picks one of them at random; the pick is the argument `timerFirst` of `Poll`.
-/

namespace RpcChat

/-! ## Data model -/

/-- The `Message` struct. `Time` is the clock reading taken when the message was built. -/
structure Message where
  From : String
  Text : String
  Time : Nat
  System : Bool
deriving DecidableEq, Repr

structure JoinArgs where
  ID : String
deriving DecidableEq, Repr

structure JoinReply where
  OK : Bool
deriving DecidableEq, Repr

structure SendArgs where
  ID : String
  Text : String
deriving DecidableEq, Repr

structure SendReply where
  OK : Bool
deriving DecidableEq, Repr

structure PollArgs where
  ID : String
  TimeoutMs : Int
deriving DecidableEq, Repr

structure PollReply where
  Messages : List Message
deriving DecidableEq, Repr

/-- The `ClientState` struct: `ch` is the content of the delivery channel, oldest first. -/
structure ClientState where
  id : String
  ch : List Message
deriving DecidableEq, Repr

/-- The `Chat` struct without its mutex: the registry and the content of `events`. -/
structure Chat where
  clients : String → Option ClientState
  events : List Message

/-- Capacity of `events`: `make(chan Message, 128)`. -/
def eventsCap : Nat := 128

/-- Capacity of a delivery channel: `make(chan Message, 32)`. -/
def clientCap : Nat := 32

/-- How a call ends: it returned `nil`, it returned an error, or it is suspended on the
full `events` channel holding the message it is about to send. -/
inductive Status where
  | ok
  | error (e : String)
  | blocked (m : Message)
deriving DecidableEq, Repr

/-- Outcome of a call: the hub afterwards, the reply struct, and how the call ended. -/
structure Result (ρ : Type) where
  chat : Chat
  reply : ρ
  status : Status

/-- The error kinds of the specification, as the strings `server.go` passes to `errors.New`. -/
def EmptyIdentity : String := "empty id"

def AlreadyExists : String := "id already in use"

def NotJoined : String := "not joined"

def EmptyText : String := "empty message"

/-! ## Channel operations -/

/-- Blocking send `ch <- m` on a buffered channel: `none` when the buffer is full. -/
def chanSend (cap : Nat) (q : List Message) (m : Message) : Option (List Message) :=
  if q.length < cap then some (q ++ [m]) else none

/-- Non-blocking send, `select` with a `default` branch: a full buffer drops `m`. -/
def trySend (cap : Nat) (q : List Message) (m : Message) : List Message :=
  if q.length < cap then q ++ [m] else q

/-- Receive `<-ch`: the oldest buffered message and the rest, `none` on an empty buffer. -/
def chanRecv (q : List Message) : Option (Message × List Message) :=
  match q with
  | [] => none
  | m :: rest => some (m, rest)

/-! ## The service -/

/-- Hub built by `NewChat`: an empty registry and an empty `events` channel. -/
def NewChat : Chat :=
  { clients := fun _ => none, events := [] }

/-- Registry after `c.clients[id] = &ClientState{id, make(chan Message, 32)}`. -/
def register (c : Chat) (id : String) : Chat :=
  { c with clients := fun k => if k = id then some { id := id, ch := [] } else c.clients k }

/-- The system message `Join` builds; the text is `fmt.Sprintf("User [%s] joined", id)`. -/
def joinMessage (id : String) (now : Nat) : Message :=
  { From := id, Text := "User [" ++ id ++ "] joined", Time := now, System := true }

/-- The message `Send` builds. -/
def sendMessage (args : SendArgs) (now : Nat) : Message :=
  { From := args.ID, Text := args.Text, Time := now, System := false }

/-- The statement `c.events <- msg` that ends `Join` and `Send`, `reply.OK` being set. -/
def produce {ρ : Type} (c : Chat) (reply : ρ) (msg : Message) : Result ρ :=
  match chanSend eventsCap c.events msg with
  | some ev => { chat := { c with events := ev }, reply := reply, status := Status.ok }
  | none => { chat := c, reply := reply, status := Status.blocked msg }

/-- `Chat.Join`. -/
def Join (c : Chat) (args : JoinArgs) (now : Nat) : Result JoinReply :=
  let id := args.ID
  if id = "" then
    { chat := c, reply := { OK := false }, status := Status.error "empty id" }
  else if (c.clients id).isSome then
    { chat := c, reply := { OK := false }, status := Status.error "id already in use" }
  else
    produce (register c id) { OK := true } (joinMessage id now)

/-- `Chat.Send`. -/
def Send (c : Chat) (args : SendArgs) (now : Nat) : Result SendReply :=
  if args.Text = "" then
    { chat := c, reply := { OK := false }, status := Status.error "empty message" }
  else if (c.clients args.ID).isSome then
    produce c { OK := true } (sendMessage args now)
  else
    { chat := c, reply := { OK := false }, status := Status.error "not joined" }

/-- The field `args.TimeoutMs` after the first lines of `Poll`: a value `<= 0` is replaced
by 25000. -/
def pollTimeoutMs (args : PollArgs) : Int :=
  if args.TimeoutMs ≤ 0 then 25000 else args.TimeoutMs

/-- Signed 64-bit value of `x` in 64 bits, the range of `int64` and `time.Duration`. -/
def wrapInt64 (x : Int) : Int :=
  (x + 9223372036854775808) % 18446744073709551616 - 9223372036854775808

/-- The duration `time.Duration(args.TimeoutMs) * time.Millisecond` handed to
`time.NewTimer`, in nanoseconds: `time.Millisecond` is 1000000 and the product wraps. -/
def pollDuration (args : PollArgs) : Int :=
  wrapInt64 (wrapInt64 (pollTimeoutMs args) * 1000000)

/-- The loop `for i := 0; i < 9; i++` of `Poll`, run for `n` more rounds on the buffer `q`:
each round receives without waiting and the first empty read returns.
The result is the messages received and the buffer left. -/
def drain : Nat → List Message → List Message × List Message
  | 0, q => ([], q)
  | n + 1, q =>
    match chanRecv q with
    | none => ([], q)
    | some (m2, rest) => ((m2 :: (drain n rest).1), (drain n rest).2)

/-- Registry after the delivery channel of `id` has been read down to `left`. -/
def setQueue (c : Chat) (id : String) (st : ClientState) (left : List Message) : Chat :=
  { c with clients := fun k => if k = id then some { st with ch := left } else c.clients k }

/-- `Chat.Poll`, with nothing delivered while the call runs. A timer whose duration is
`<= 0` has expired when the first `select` is reached, a timer with a positive duration has
not. The `select` takes the timer branch when the channel is empty (at once, or after the
duration has passed), the receive branch when the channel holds a message and the timer
has not expired, and when both are ready the branch `timerFirst` picks: the timer branch
for `true`. No channel is ever closed in `server.go`, so the branch for a closed channel
is never taken. -/
def Poll (c : Chat) (args : PollArgs) (timerFirst : Bool) : Result PollReply :=
  if args.ID = "" then
    { chat := c, reply := { Messages := [] }, status := Status.error "empty id" }
  else
    match c.clients args.ID with
    | none => { chat := c, reply := { Messages := [] }, status := Status.error "not joined" }
    | some st =>
      match chanRecv st.ch with
      | none => { chat := c, reply := { Messages := [] }, status := Status.ok }
      | some (msg, rest) =>
        if pollDuration args ≤ 0 ∧ timerFirst = true then
          { chat := c, reply := { Messages := [] }, status := Status.ok }
        else
          { chat := setQueue c args.ID st (drain 9 rest).2,
            reply := { Messages := msg :: (drain 9 rest).1 },
            status := Status.ok }

/-- Body of the inner loop of `runBroadcaster` for the registry entry `id ↦ st`. -/
def deliver (msg : Message) (id : String) (st : ClientState) : ClientState :=
  if id = msg.From ∧ msg.System = false then st
  else { st with ch := trySend clientCap st.ch msg }

/-- The loop `for id, st := range c.clients` of `runBroadcaster`. -/
def fanOut (msg : Message) (clients : String → Option ClientState) :
    String → Option ClientState :=
  fun id => (clients id).map (deliver msg id)

/-- One round of `for msg := range c.events`: `none` when `events` is empty and the
broadcaster waits. -/
def runBroadcasterStep (c : Chat) : Option Chat :=
  match chanRecv c.events with
  | none => none
  | some (msg, rest) => some { clients := fanOut msg c.clients, events := rest }

/-- Registry after the broadcaster has handled the messages `evs` in order. -/
def broadcastAll : (String → Option ClientState) → List Message → String → Option ClientState
  | clients, [] => clients
  | clients, msg :: rest => broadcastAll (fanOut msg clients) rest

/-- `runBroadcaster` run until `events` is empty, where the loop waits for the next event. -/
def runBroadcaster (c : Chat) : Chat :=
  { clients := broadcastAll c.clients c.events, events := [] }

/-- Delivery queue of `id`, empty for an identity that is not registered. -/
def queue (c : Chat) (id : String) : List Message :=
  match c.clients id with
  | some st => st.ch
  | none => []

/-! ## Executions -/

/-- The hub together with the callers suspended before their send on `events` (`waiting`)
and two history variables: `processed`, the events the broadcaster has taken from `events`,
oldest first, and `polled`, for each identity the messages its `Poll` calls have returned,
oldest first. -/
structure Sys where
  chat : Chat
  waiting : List Message
  processed : List Message
  polled : String → List Message

/-- The system right after `NewChat`. -/
def Sys.init : Sys :=
  { chat := NewChat, waiting := [], processed := [], polled := fun _ => [] }

/-- Every event put into `events` so far, in the order it was put there. -/
def Sys.enqueued (s : Sys) : List Message :=
  s.processed ++ s.chat.events

/-- The suspended callers after a call that ended with the given status. -/
def park (w : List Message) : Status → List Message
  | Status.blocked m => w ++ [m]
  | _ => w

/-- History of `id` after a `Poll` of `id` has returned `batch`. -/
def record (polled : String → List Message) (id : String) (batch : List Message) :
    String → List Message :=
  fun k => if k = id then polled k ++ batch else polled k

/-- The system after a whole call `Join(args)` at clock reading `now`. -/
def Sys.join (s : Sys) (args : JoinArgs) (now : Nat) : Sys :=
  { s with chat := (Join s.chat args now).chat,
           waiting := park s.waiting (Join s.chat args now).status }

/-- The system after a whole call `Send(args)` at clock reading `now`. -/
def Sys.send (s : Sys) (args : SendArgs) (now : Nat) : Sys :=
  { s with chat := (Send s.chat args now).chat,
           waiting := park s.waiting (Send s.chat args now).status }

/-- The system after a whole call `Poll(args)`: what it returned is added to the history. -/
def Sys.poll (s : Sys) (args : PollArgs) (timerFirst : Bool) : Sys :=
  { s with chat := (Poll s.chat args timerFirst).chat,
           polled := record s.polled args.ID (Poll s.chat args timerFirst).reply.Messages }

/-- The system after one round of the broadcaster, if `events` holds an event. -/
def Sys.broadcast (s : Sys) : Option Sys :=
  match chanRecv s.chat.events, runBroadcasterStep s.chat with
  | some (msg, _), some c => some { s with chat := c, processed := s.processed ++ [msg] }
  | _, _ => none

/-- One transition of the system. `join`, `send` and `poll` are whole calls and `broadcast`
is one round of the broadcaster; `resume` completes the send of a suspended caller.
The last three are the finer interleavings the mutex allows: a `Join` or a `Send` that has
left its critical section and not yet sent on `events`, and a single receive of a `Poll`. -/
inductive Step : Sys → Sys → Prop
  | join (s : Sys) (args : JoinArgs) (now : Nat) : Step s (s.join args now)
  | send (s : Sys) (args : SendArgs) (now : Nat) : Step s (s.send args now)
  | poll (s : Sys) (args : PollArgs) (timerFirst : Bool) : Step s (s.poll args timerFirst)
  | broadcast (s t : Sys) : s.broadcast = some t → Step s t
  | resume (s : Sys) (m : Message) (ev : List Message) :
      m ∈ s.waiting → chanSend eventsCap s.chat.events m = some ev →
      Step s { s with chat := { s.chat with events := ev }, waiting := s.waiting.erase m }
  | joinUnlocked (s : Sys) (id : String) (now : Nat) :
      id ≠ "" → s.chat.clients id = none →
      Step s { s with chat := register s.chat id,
                      waiting := s.waiting ++ [joinMessage id now] }
  | sendChecked (s : Sys) (args : SendArgs) (now : Nat) :
      args.Text ≠ "" → (s.chat.clients args.ID).isSome = true →
      Step s { s with waiting := s.waiting ++ [sendMessage args now] }
  | recv (s : Sys) (id : String) (st : ClientState) (msg : Message) (rest : List Message) :
      id ≠ "" → s.chat.clients id = some st → chanRecv st.ch = some (msg, rest) →
      Step s { s with chat := setQueue s.chat id st rest,
                      polled := record s.polled id [msg] }

/-- The states of the executions that start right after `NewChat`. -/
inductive Reachable : Sys → Prop
  | init : Reachable Sys.init
  | step {s t : Sys} : Reachable s → Step s t → Reachable t

/-! ## Concrete hubs -/

/-- The hub after `Join("x")` and then `n` calls `Send("x", "hi")`, the broadcaster not
having run in between. -/
def floodHub : Nat → Chat
  | 0 => (Join NewChat { ID := "x" } 0).chat
  | n + 1 => (Send (floodHub n) { ID := "x", Text := "hi" } 0).chat

/-- The hub after `Join("alice")`. -/
def aliceHub : Chat :=
  (Join NewChat { ID := "alice" } 1).chat

/-- One round of the broadcaster when `events` holds an event, no change otherwise. -/
def Sys.run (s : Sys) : Sys :=
  (s.broadcast).getD s

/-- The system after `Join("alice")`, `Join("bob")` and `Send("alice", "hello")` at clock
readings 1, 2 and 3, the broadcaster handling each event right after the call. -/
def demoSys : Sys :=
  (((((Sys.init.join { ID := "alice" } 1).run).join { ID := "bob" } 2).run).send
    { ID := "alice", Text := "hello" } 3).run

/-- The system `demoSys` after `Poll("bob", 1000)`. -/
def demoPolled : Sys :=
  demoSys.poll { ID := "bob", TimeoutMs := 1000 } false

/-- The system after alice, bob and carol have joined and alice has sent `n` messages, the
broadcaster handling each event right after the call and nobody polling. -/
def chatterSys : Nat → Sys
  | 0 => (((((Sys.init.join { ID := "alice" } 1).run).join { ID := "bob" } 2).run).join
      { ID := "carol" } 3).run
  | n + 1 => ((chatterSys n).send { ID := "alice", Text := "hi" } (n + 4)).run

/-- The system `chatterSys 40`, where the queues of bob and carol are full, after carol has
polled once and alice has sent one more message that is not yet broadcast. -/
def fullSys : Sys :=
  ((chatterSys 40).poll { ID := "carol", TimeoutMs := 1000 } false).send
    { ID := "alice", Text := "more" } 50

/-- The hub after `Join("alice")`, `Join("bob")` and `Send("alice", "hello")` at the clock
readings `t1`, `t2`, `t3`, the broadcaster emptying `events` after each call. -/
def scenario (t1 t2 t3 : Nat) : Chat :=
  runBroadcaster (Send
    (runBroadcaster (Join
      (runBroadcaster (Join NewChat { ID := "alice" } t1).chat)
      { ID := "bob" } t2).chat)
    { ID := "alice", Text := "hello" } t3).chat

/-! ## Basic facts about the operations -/

theorem drain_eq (n : Nat) (q : List Message) : drain n q = (q.take n, q.drop n) := by
  induction n generalizing q with
  | zero => simp [drain]
  | succ n ih =>
    cases q with
    | nil => simp [drain, chanRecv]
    | cons m rest => simp [drain, chanRecv, ih]

theorem produce_clients {ρ : Type} (c : Chat) (r : ρ) (m : Message) :
    (produce c r m).chat.clients = c.clients := by
  unfold produce
  cases chanSend eventsCap c.events m <;> rfl

theorem produce_room {ρ : Type} (c : Chat) (r : ρ) (m : Message)
    (h : c.events.length < eventsCap) :
    produce c r m = { chat := { c with events := c.events ++ [m] }, reply := r,
                      status := Status.ok } := by
  simp [produce, chanSend, h]

theorem produce_full {ρ : Type} (c : Chat) (r : ρ) (m : Message)
    (h : eventsCap ≤ c.events.length) :
    produce c r m = { chat := c, reply := r, status := Status.blocked m } := by
  simp [produce, chanSend, Nat.not_lt.mpr h]

/-- A value in the range of `int64` is its own signed 64-bit value. -/
theorem wrapInt64_of_range (x : Int) (hlo : -9223372036854775808 ≤ x)
    (hhi : x < 9223372036854775808) : wrapInt64 x = x := by
  unfold wrapInt64
  rw [Int.emod_eq_of_lt (by omega) (by omega)]
  omega

/-- The timer of `Poll` gets a positive duration for every `TimeoutMs` up to
9223372036854: the default 25000 for a value `<= 0`, no wrap for the others. -/
theorem pollDuration_pos (args : PollArgs) (h : args.TimeoutMs ≤ 9223372036854) :
    0 < pollDuration args := by
  have hms : 0 < pollTimeoutMs args ∧ pollTimeoutMs args ≤ 9223372036854 := by
    unfold pollTimeoutMs
    split <;> omega
  have h1 : wrapInt64 (pollTimeoutMs args) = pollTimeoutMs args :=
    wrapInt64_of_range _ (by omega) (by omega)
  unfold pollDuration
  rw [h1, wrapInt64_of_range _ (by omega) (by omega)]
  omega

/-- The two ways a `Poll` can end: nothing is returned and the hub is unchanged, or the
identity is registered with a non-empty queue, the timer branch was not taken, and the
first ten queued messages are returned and removed. -/
theorem Poll_cases (c : Chat) (args : PollArgs) (timerFirst : Bool) :
    ((Poll c args timerFirst).chat = c ∧ (Poll c args timerFirst).reply.Messages = []) ∨
      (∃ st, args.ID ≠ "" ∧ c.clients args.ID = some st ∧
        ¬(pollDuration args ≤ 0 ∧ timerFirst = true) ∧
        (Poll c args timerFirst).chat = setQueue c args.ID st (st.ch.drop 10) ∧
        (Poll c args timerFirst).reply.Messages = st.ch.take 10 ∧
        (Poll c args timerFirst).status = Status.ok) := by
  unfold Poll
  by_cases hid : args.ID = ""
  · left; simp [hid]
  · cases hreg : c.clients args.ID with
    | none => left; simp [hid, hreg]
    | some st =>
      cases hq : st.ch with
      | nil => left; simp [hid, hreg, hq, chanRecv]
      | cons m rest =>
        by_cases hsel : pollDuration args ≤ 0 ∧ timerFirst = true
        · left
          simp only [hid, hreg, hq, chanRecv, if_false]
          rw [if_pos hsel]
          exact ⟨rfl, rfl⟩
        · right
          refine ⟨st, hid, rfl, hsel, ?_⟩
          simp only [hid, hreg, hq, chanRecv, if_false]
          rw [if_neg hsel]
          simp [drain_eq]

/-- `Send` with the empty text fails with `EmptyText` and changes nothing, whoever sends and
whatever the event queue holds. -/
theorem Send_empty_text (c : Chat) (id : String) (now : Nat) :
    Send c { ID := id, Text := "" } now
      = { chat := c, reply := { OK := false }, status := Status.error EmptyText } := by
  simp [Send, EmptyText]

/-- With `events` full, `Send` from a registered identity with a non-empty text is suspended
on its channel send and the hub is unchanged. -/
theorem Send_blocks_when_full (c : Chat) (args : SendArgs) (now : Nat)
    (hreg : (c.clients args.ID).isSome = true) (htext : args.Text ≠ "")
    (hfull : eventsCap ≤ c.events.length) :
    Send c args now
      = { chat := c, reply := { OK := true }, status := Status.blocked (sendMessage args now) } := by
  simp [Send, htext, hreg, produce_full _ _ _ hfull]

/-- With an empty `events` the broadcaster waits and `runBroadcaster` changes nothing. -/
theorem runBroadcaster_idle (c : Chat) (h : c.events = []) : runBroadcaster c = c := by
  cases c with
  | mk clients events =>
    simp only at h
    subst h
    rfl

/-- The function `runBroadcaster` is `runBroadcasterStep` repeated until `events` is empty. -/
theorem runBroadcaster_step (c d : Chat) (h : runBroadcasterStep c = some d) :
    runBroadcaster c = runBroadcaster d := by
  unfold runBroadcasterStep at h
  cases hev : c.events with
  | nil => simp [hev, chanRecv] at h
  | cons msg rest =>
    simp only [hev, chanRecv, Option.some.injEq] at h
    subst h
    simp [runBroadcaster, hev, broadcastAll]

/-! ## Rejected calls -/

/-- C1: `Join` with the empty identity fails with `EmptyIdentity`, `Join` with a non-empty
identity that is already a key of the registry fails with `AlreadyExists`; in both cases the
hub (registry, every delivery queue, the event queue) is what it was before the call, so no
join event is enqueued, and `reply.OK` stays false. -/
theorem Join_rejects (c : Chat) (id : String) (now : Nat)
    (h : id = "" ∨ (c.clients id).isSome = true) :
    (Join c { ID := id } now).status
        = Status.error (if id = "" then EmptyIdentity else AlreadyExists) ∧
      (Join c { ID := id } now).chat = c ∧
      (Join c { ID := id } now).chat.events = c.events ∧
      (Join c { ID := id } now).reply.OK = false := by
  by_cases hid : id = ""
  · simp [Join, hid, EmptyIdentity]
  · have hreg : (c.clients id).isSome = true := h.resolve_left hid
    simp [Join, hid, hreg, AlreadyExists]

theorem Join_rejects_witness :
    ("alice" = "" ∨ (aliceHub.clients "alice").isSome = true) ∧
      (Join aliceHub { ID := "alice" } 2).status
        = Status.error (if "alice" = "" then EmptyIdentity else AlreadyExists) ∧
      (Join aliceHub { ID := "alice" } 2).chat = aliceHub ∧
      (Join aliceHub { ID := "alice" } 2).chat.events = aliceHub.events ∧
      (Join aliceHub { ID := "alice" } 2).reply.OK = false :=
  ⟨Or.inr (by decide), Join_rejects aliceHub "alice" 2 (Or.inr (by decide))⟩

/-- C2 as stated fails: `Send` from an identity that is not registered, with the empty text,
reports `EmptyText`, not `NotJoined`. -/
theorem Send_ghost_empty_text :
    NewChat.clients "ghost" = none ∧
      (Send NewChat { ID := "ghost", Text := "" } 0).status = Status.error EmptyText ∧
      (Send NewChat { ID := "ghost", Text := "" } 0).status ≠ Status.error NotJoined := by
  decide

/-- C2 amended: `Send` from an identity that is not in the registry fails with `NotJoined`
when the text is non-empty and with `EmptyText` when the text is empty; either way the
registry and the event queue are unchanged, so no event is produced. -/
theorem Send_not_joined (c : Chat) (id text : String) (now : Nat)
    (h : c.clients id = none) :
    (Send c { ID := id, Text := text } now).status
        = Status.error (if text = "" then EmptyText else NotJoined) ∧
      (Send c { ID := id, Text := text } now).chat = c ∧
      (Send c { ID := id, Text := text } now).chat.events = c.events ∧
      (Send c { ID := id, Text := text } now).reply.OK = false := by
  by_cases ht : text = ""
  · simp [Send, ht, EmptyText]
  · simp [Send, ht, h, NotJoined]

theorem Send_not_joined_witness :
    aliceHub.clients "bob" = none ∧
      (Send aliceHub { ID := "bob", Text := "hi" } 2).status
        = Status.error (if "hi" = "" then EmptyText else NotJoined) ∧
      (Send aliceHub { ID := "bob", Text := "hi" } 2).chat = aliceHub ∧
      (Send aliceHub { ID := "bob", Text := "hi" } 2).chat.events = aliceHub.events ∧
      (Send aliceHub { ID := "bob", Text := "hi" } 2).reply.OK = false :=
  ⟨by decide, Send_not_joined aliceHub "bob" "hi" 2 (by decide)⟩

/-- C3 as stated fails: `Poll` with the empty identity, which is not a key of the registry,
reports `EmptyIdentity`, not `NotJoined`, whatever the `select` would pick. -/
theorem Poll_empty_identity :
    NewChat.clients "" = none ∧
      (Poll NewChat { ID := "", TimeoutMs := 1000 } false).status
        = Status.error EmptyIdentity ∧
      (Poll NewChat { ID := "", TimeoutMs := 1000 } false).status ≠ Status.error NotJoined ∧
      (Poll NewChat { ID := "", TimeoutMs := 1000 } true).status
        = Status.error EmptyIdentity ∧
      (Poll NewChat { ID := "", TimeoutMs := 1000 } true).status ≠ Status.error NotJoined := by
  decide

/-- C3 amended: for every identity that is not a key of the registry and every timeout,
`Poll` fails, with `NotJoined` (the error `Send` reports for such an identity) when the
identity is non-empty and with `EmptyIdentity` when it is empty; the hub is unchanged and no
message is returned. -/
theorem Poll_not_joined (c : Chat) (id : String) (timeout : Int) (timerFirst : Bool)
    (h : c.clients id = none) :
    (Poll c { ID := id, TimeoutMs := timeout } timerFirst).status
        = Status.error (if id = "" then EmptyIdentity else NotJoined) ∧
      (id ≠ "" → ∀ now, (Poll c { ID := id, TimeoutMs := timeout } timerFirst).status
        = (Send c { ID := id, Text := "hi" } now).status) ∧
      (Poll c { ID := id, TimeoutMs := timeout } timerFirst).chat = c ∧
      (Poll c { ID := id, TimeoutMs := timeout } timerFirst).reply.Messages = [] := by
  by_cases hid : id = ""
  · simp [Poll, hid, EmptyIdentity]
  · simp [Poll, Send, hid, h, NotJoined]

theorem Poll_not_joined_witness :
    aliceHub.clients "bob" = none ∧
      (Poll aliceHub { ID := "bob", TimeoutMs := -5 } true).status
        = Status.error (if "bob" = "" then EmptyIdentity else NotJoined) ∧
      (Poll aliceHub { ID := "bob", TimeoutMs := -5 } true).chat = aliceHub ∧
      (Poll aliceHub { ID := "bob", TimeoutMs := -5 } true).reply.Messages = [] :=
  ⟨by decide, (Poll_not_joined aliceHub "bob" (-5) true (by decide)).1,
    (Poll_not_joined aliceHub "bob" (-5) true (by decide)).2.2⟩

/-! ## Accepted sends -/

/-- C4 as stated fails: with `x` registered and the event queue holding 128 events,
`Send("x", "hi")` does not return; it is suspended on the full queue, which is unchanged. -/
theorem Send_full_events_blocks :
    ((floodHub 127).clients "x").isSome = true ∧
      (floodHub 127).events.length = 128 ∧
      (Send (floodHub 127) { ID := "x", Text := "hi" } 0).status
        = Status.blocked { From := "x", Text := "hi", Time := 0, System := false } ∧
      (Send (floodHub 127) { ID := "x", Text := "hi" } 0).status ≠ Status.ok ∧
      (Send (floodHub 127) { ID := "x", Text := "hi" } 0).chat.events
        = (floodHub 127).events := by
  set_option maxRecDepth 1000000 in decide

/-- C4 amended: for a registered identity `X`, `Send(X, "")` fails with `EmptyText` and
changes nothing; `Send(X, text)` with a non-empty text, when the event queue holds fewer
than 128 events, returns OK and the event queue becomes the old one followed by the single
message `{From: X, Text: text, System: false}`, the registry and every delivery queue
being unchanged. -/
theorem Send_registered (c : Chat) (X text : String) (now : Nat)
    (hreg : (c.clients X).isSome = true) (htext : text ≠ "")
    (hroom : c.events.length < eventsCap) :
    ((Send c { ID := X, Text := "" } now).status = Status.error EmptyText ∧
      (Send c { ID := X, Text := "" } now).chat = c) ∧
    (Send c { ID := X, Text := text } now).status = Status.ok ∧
    (Send c { ID := X, Text := text } now).reply.OK = true ∧
    (Send c { ID := X, Text := text } now).chat.events
      = c.events ++ [{ From := X, Text := text, Time := now, System := false }] ∧
    (Send c { ID := X, Text := text } now).chat.clients = c.clients := by
  refine ⟨by simp [Send, EmptyText], ?_⟩
  simp [Send, htext, hreg, produce_room _ _ _ hroom, sendMessage]

theorem Send_registered_witness :
    ((aliceHub.clients "alice").isSome = true ∧ "hello" ≠ "" ∧
      aliceHub.events.length < eventsCap) ∧
    ((Send aliceHub { ID := "alice", Text := "" } 2).status = Status.error EmptyText ∧
      (Send aliceHub { ID := "alice", Text := "" } 2).chat = aliceHub) ∧
    (Send aliceHub { ID := "alice", Text := "hello" } 2).status = Status.ok ∧
    (Send aliceHub { ID := "alice", Text := "hello" } 2).reply.OK = true ∧
    (Send aliceHub { ID := "alice", Text := "hello" } 2).chat.events
      = aliceHub.events ++ [{ From := "alice", Text := "hello", Time := 2, System := false }] ∧
    (Send aliceHub { ID := "alice", Text := "hello" } 2).chat.clients = aliceHub.clients :=
  ⟨⟨by decide, by decide, by decide⟩,
    Send_registered aliceHub "alice" "hello" 2 (by decide) (by decide) (by decide)⟩

/-! ## Join followed by its broadcast -/

/-- C5: on a hub with an empty event queue, `Join(X)` for a non-empty `X` that is not
registered returns OK and enqueues one event; after the broadcaster has processed it the
event queue is empty again, `X` is registered with a queue holding exactly the system
message `{From: X, Text: "User [X] joined", System: true}`, and every identity registered
before is still registered and, if its queue was below capacity, has that message appended
as the last element of its queue. -/
theorem Join_then_broadcast (c : Chat) (X : String) (now : Nat)
    (hev : c.events = []) (hX : X ≠ "") (hnew : c.clients X = none) :
    (Join c { ID := X } now).status = Status.ok ∧
    (Join c { ID := X } now).reply.OK = true ∧
    (Join c { ID := X } now).chat.events
      = [{ From := X, Text := "User [" ++ X ++ "] joined", Time := now, System := true }] ∧
    ∃ c2, runBroadcasterStep (Join c { ID := X } now).chat = some c2 ∧
      c2.events = [] ∧
      c2.clients X = some { id := X, ch :=
        [{ From := X, Text := "User [" ++ X ++ "] joined", Time := now, System := true }] } ∧
      ∀ id st, c.clients id = some st →
        ∃ st2, c2.clients id = some st2 ∧
          (st.ch.length < clientCap →
            st2.ch = st.ch ++
              [{ From := X, Text := "User [" ++ X ++ "] joined", Time := now, System := true }] ∧
            st2.ch.getLast?
              = some { From := X, Text := "User [" ++ X ++ "] joined", Time := now,
                       System := true }) := by
  have hroom : (register c X).events.length < eventsCap := by
    simp [register, hev, eventsCap]
  have hJ : Join c { ID := X } now
      = { chat := { register c X with events := (register c X).events ++ [joinMessage X now] },
          reply := { OK := true }, status := Status.ok } := by
    simp [Join, hX, hnew, produce_room _ _ _ hroom]
  rw [hJ]
  refine ⟨rfl, rfl, by simp [register, hev, joinMessage], ?_⟩
  refine ⟨{ clients := fanOut (joinMessage X now) (register c X).clients, events := [] },
    by simp [runBroadcasterStep, chanRecv, register, hev], rfl, ?_, ?_⟩
  · simp [fanOut, register, deliver, joinMessage, trySend, clientCap]
  · intro id st hst
    have hne : id ≠ X := by
      intro h
      rw [h, hnew] at hst
      cases hst
    refine ⟨deliver (joinMessage X now) id st, by simp [fanOut, register, hne, hst], ?_⟩
    intro hlt
    simp [deliver, joinMessage, trySend, hlt]

theorem Join_then_broadcast_witness :
    ((runBroadcaster aliceHub).events = [] ∧ "bob" ≠ "" ∧
      (runBroadcaster aliceHub).clients "bob" = none) ∧
    (Join (runBroadcaster aliceHub) { ID := "bob" } 2).status = Status.ok ∧
    (Join (runBroadcaster aliceHub) { ID := "bob" } 2).reply.OK = true ∧
    (Join (runBroadcaster aliceHub) { ID := "bob" } 2).chat.events
      = [{ From := "bob", Text := "User [" ++ "bob" ++ "] joined", Time := 2,
           System := true }] := by
  have h := Join_then_broadcast (runBroadcaster aliceHub) "bob" 2
    (by decide) (by decide) (by decide)
  exact ⟨⟨by decide, by decide, by decide⟩, h.1, h.2.1, h.2.2.1⟩

/-! ## Poll batches -/

/-- The batch of a `Poll` whose `select` does not take the branch of an expired timer: for a
registered identity `X` whose delivery queue holds `q` it returns without error the first
`min |q| 10` messages of `q` in order and leaves `X` with the remaining messages of `q` in
order, so that the next such `Poll` returns the next ones; on an empty queue it returns the
empty sequence and changes nothing. No queue of another client and neither the registry
keys nor the event queue are modified. -/
theorem Poll_batch_unexpired (c : Chat) (X : String) (timeout next : Int) (p q : Bool)
    (st : ClientState) (hX : X ≠ "") (hreg : c.clients X = some st)
    (hp : ¬(pollDuration { ID := X, TimeoutMs := timeout } ≤ 0 ∧ p = true))
    (hq : ¬(pollDuration { ID := X, TimeoutMs := next } ≤ 0 ∧ q = true)) :
    (Poll c { ID := X, TimeoutMs := timeout } p).status = Status.ok ∧
    (Poll c { ID := X, TimeoutMs := timeout } p).reply.Messages = st.ch.take 10 ∧
    (Poll c { ID := X, TimeoutMs := timeout } p).reply.Messages.length = min st.ch.length 10 ∧
    (Poll c { ID := X, TimeoutMs := timeout } p).chat.clients X
      = some { id := st.id, ch := st.ch.drop 10 } ∧
    (∀ k, k ≠ X → (Poll c { ID := X, TimeoutMs := timeout } p).chat.clients k = c.clients k) ∧
    (Poll c { ID := X, TimeoutMs := timeout } p).chat.events = c.events ∧
    (st.ch = [] → (Poll c { ID := X, TimeoutMs := timeout } p).reply.Messages = [] ∧
      (Poll c { ID := X, TimeoutMs := timeout } p).chat = c) ∧
    (Poll (Poll c { ID := X, TimeoutMs := timeout } p).chat { ID := X, TimeoutMs := next } q
      ).reply.Messages = (st.ch.drop 10).take 10 := by
  have key : ∀ (d : Chat) (t : Int) (b : Bool) (s : ClientState), d.clients X = some s →
      ¬(pollDuration { ID := X, TimeoutMs := t } ≤ 0 ∧ b = true) →
      (Poll d { ID := X, TimeoutMs := t } b).status = Status.ok ∧
      (Poll d { ID := X, TimeoutMs := t } b).reply.Messages = s.ch.take 10 ∧
      (Poll d { ID := X, TimeoutMs := t } b).chat.clients X
        = some { id := s.id, ch := s.ch.drop 10 } ∧
      (∀ k, k ≠ X → (Poll d { ID := X, TimeoutMs := t } b).chat.clients k = d.clients k) ∧
      (Poll d { ID := X, TimeoutMs := t } b).chat.events = d.events ∧
      (s.ch = [] → (Poll d { ID := X, TimeoutMs := t } b).chat = d) := by
    intro d t b s hs hsel
    obtain ⟨sid, l⟩ := s
    cases l with
    | nil => simp [Poll, hX, hs, chanRecv]
    | cons m rest =>
      have hP : Poll d { ID := X, TimeoutMs := t } b
          = { chat := setQueue d X { id := sid, ch := m :: rest } (drain 9 rest).2,
              reply := { Messages := m :: (drain 9 rest).1 }, status := Status.ok } := by
        simp only [Poll, hX, hs, chanRecv, if_false]
        rw [if_neg hsel]
      rw [hP]
      refine ⟨rfl, ?_, ?_, ?_, rfl, ?_⟩
      · simp [drain_eq]
      · simp [drain_eq, setQueue]
      · intro k hk
        simp [setQueue, hk]
      · simp
  obtain ⟨h1, h2, h3, h4, h5, h6⟩ := key c timeout p st hreg hp
  obtain ⟨_, g2, _⟩ := key _ next q _ h3 hq
  refine ⟨h1, h2, ?_, h3, h4, h5, ?_, g2⟩
  · rw [h2, List.length_take, Nat.min_comm]
  · intro he
    exact ⟨by rw [h2, he]; rfl, h6 he⟩

/-! ## Effect of one transition on a delivery queue -/

theorem queue_of_some {c : Chat} {id : String} {st : ClientState}
    (h : c.clients id = some st) : queue c id = st.ch := by
  simp [queue, h]

theorem queue_congr {c d : Chat} (h : d.clients = c.clients) (k : String) :
    queue d k = queue c k := by
  simp [queue, h]

theorem queue_register (c : Chat) (id : String) (h : c.clients id = none) (k : String) :
    queue (register c id) k = queue c k := by
  by_cases hk : k = id
  · subst hk
    simp [queue, register, h]
  · simp [queue, register, hk]

theorem queue_Join (c : Chat) (args : JoinArgs) (now : Nat) (k : String) :
    queue (Join c args now).chat k = queue c k := by
  unfold Join
  by_cases hid : args.ID = ""
  · simp [hid]
  · cases hreg : c.clients args.ID with
    | some st => simp [hid, hreg]
    | none =>
      simp only [hid, hreg, Option.isSome_none, if_false, Bool.false_eq_true]
      rw [queue_congr (produce_clients _ _ _) k]
      exact queue_register c args.ID hreg k

theorem Send_clients (c : Chat) (args : SendArgs) (now : Nat) :
    (Send c args now).chat.clients = c.clients := by
  unfold Send
  split
  · rfl
  · split
    · exact produce_clients _ _ _
    · rfl

theorem queue_setQueue (c : Chat) (id : String) (st : ClientState) (left : List Message)
    (k : String) :
    queue (setQueue c id st left) k = if k = id then left else queue c k := by
  by_cases hk : k = id <;> simp [queue, setQueue, hk]

theorem Poll_queue (c : Chat) (args : PollArgs) (timerFirst : Bool) :
    (Poll c args timerFirst).reply.Messages ++ queue (Poll c args timerFirst).chat args.ID
      = queue c args.ID := by
  rcases Poll_cases c args timerFirst with ⟨hc, hm⟩ | ⟨st, _, hreg, _, hc, hm, _⟩
  · rw [hc, hm]; rfl
  · rw [hc, hm, queue_setQueue, queue_of_some hreg]
    simp

theorem Poll_queue_other (c : Chat) (args : PollArgs) (timerFirst : Bool) (k : String)
    (hk : k ≠ args.ID) :
    queue (Poll c args timerFirst).chat k = queue c k := by
  rcases Poll_cases c args timerFirst with ⟨hc, _⟩ | ⟨st, _, _, _, hc, _, _⟩
  · rw [hc]
  · rw [hc, queue_setQueue]
    simp [hk]

theorem queue_fanOut (msg : Message) (c : Chat) (rest : List Message) (k : String) :
    queue { clients := fanOut msg c.clients, events := rest } k = queue c k ∨
      (queue { clients := fanOut msg c.clients, events := rest } k = queue c k ++ [msg] ∧
        (queue c k).length < clientCap ∧ ¬(k = msg.From ∧ msg.System = false)) := by
  cases hreg : c.clients k with
  | none => left; simp [queue, fanOut, hreg]
  | some st =>
    by_cases hself : k = msg.From ∧ msg.System = false
    · left
      have hd : deliver msg k st = st := by simp [deliver, hself]
      simp [queue, fanOut, hreg, hd]
    · by_cases hlen : st.ch.length < clientCap
      · right
        refine ⟨?_, ?_, hself⟩
        · simp [queue, fanOut, hreg, deliver, hself, trySend, hlen]
        · simpa [queue, hreg] using hlen
      · left; simp [queue, fanOut, hreg, deliver, hself, trySend, hlen]

theorem broadcast_some {s t : Sys} (h : s.broadcast = some t) :
    ∃ msg rest, s.chat.events = msg :: rest ∧
      t = { s with chat := { clients := fanOut msg s.chat.clients, events := rest },
                   processed := s.processed ++ [msg] } := by
  unfold Sys.broadcast runBroadcasterStep at h
  cases hev : s.chat.events with
  | nil => simp [hev, chanRecv] at h
  | cons msg rest =>
    simp [hev, chanRecv] at h
    exact ⟨msg, rest, rfl, h.symm⟩

/-- What one transition does to the history and the queue of one identity: either the
broadcaster took no event, what the identity has got (returned or still queued) is the same
sequence and its queue has not grown; or the broadcaster took the event `msg`, nothing was
returned, and the queue is unchanged or is the old queue followed by `msg`, the latter only
if the old queue was below capacity and `msg` is not an ordinary message of the identity. -/
theorem step_effect {s t : Sys} (h : Step s t) (id : String) :
    (t.processed = s.processed ∧
        t.polled id ++ queue t.chat id = s.polled id ++ queue s.chat id ∧
        (queue t.chat id).length ≤ (queue s.chat id).length) ∨
      (∃ msg, t.processed = s.processed ++ [msg] ∧ t.polled id = s.polled id ∧
        (queue t.chat id = queue s.chat id ∨
          (queue t.chat id = queue s.chat id ++ [msg] ∧
            (queue s.chat id).length < clientCap ∧ ¬(id = msg.From ∧ msg.System = false)))) := by
  cases h with
  | join args now =>
    left
    simp [Sys.join, queue_Join]
  | send args now =>
    left
    simp [Sys.send, queue_congr (Send_clients s.chat args now)]
  | poll args timerFirst =>
    left
    by_cases hk : id = args.ID
    · subst hk
      have hq := Poll_queue s.chat args timerFirst
      refine ⟨rfl, ?_, ?_⟩
      · simp [Sys.poll, record, List.append_assoc, hq]
      · have := congrArg List.length hq
        simp only [List.length_append] at this
        simp only [Sys.poll]
        omega
    · simp [Sys.poll, record, hk, Poll_queue_other _ _ _ _ hk]
  | broadcast _ hb =>
    right
    obtain ⟨msg, rest, _, rfl⟩ := broadcast_some hb
    exact ⟨msg, rfl, rfl, queue_fanOut msg s.chat rest id⟩
  | resume m ev hm hsend =>
    left
    exact ⟨rfl, rfl, Nat.le_refl _⟩
  | joinUnlocked k now hk hnew =>
    left
    simp [queue_register _ _ hnew]
  | sendChecked args now ht hreg =>
    left
    exact ⟨rfl, rfl, Nat.le_refl _⟩
  | recv k st msg rest hk hreg hrecv =>
    left
    have hq : st.ch = msg :: rest := by
      cases hch : st.ch with
      | nil => simp [hch, chanRecv] at hrecv
      | cons a l =>
        simp [hch, chanRecv] at hrecv
        rw [hrecv.1, hrecv.2]
    by_cases hid : id = k
    · subst hid
      simp [record, queue_setQueue, queue_of_some hreg, hq]
    · simp [record, queue_setQueue, hid]

/-! ## Invariants of the reachable states -/

theorem reach_no_echo {s : Sys} (h : Reachable s) (id : String) (m : Message)
    (hm : m ∈ s.polled id ++ queue s.chat id) (hsys : m.System = false) : m.From ≠ id := by
  induction h generalizing m with
  | init => simp [Sys.init, NewChat, queue] at hm
  | step _ hstep ih =>
    rcases step_effect hstep id with ⟨_, hsame, _⟩ | ⟨msg, _, hp, hq | ⟨hq, _, hnot⟩⟩
    · rw [hsame] at hm
      exact ih m hm hsys
    · rw [hp, hq] at hm
      exact ih m hm hsys
    · rw [hp, hq, ← List.append_assoc, List.mem_append, List.mem_singleton] at hm
      rcases hm with hm | rfl
      · exact ih m hm hsys
      · intro hfrom
        exact hnot ⟨hfrom.symm, hsys⟩

theorem reach_bound {s : Sys} (h : Reachable s) (id : String) :
    (queue s.chat id).length ≤ clientCap := by
  induction h with
  | init => simp [Sys.init, NewChat, queue]
  | step _ hstep ih =>
    rcases step_effect hstep id with ⟨_, _, hle⟩ | ⟨msg, _, _, hq | ⟨hq, hlt, _⟩⟩
    · exact Nat.le_trans hle ih
    · rw [hq]
      exact ih
    · rw [hq, List.length_append, List.length_singleton]
      exact hlt

theorem reach_sublist {s : Sys} (h : Reachable s) (id : String) :
    (s.polled id ++ queue s.chat id).Sublist s.processed := by
  induction h with
  | init => simp [Sys.init, NewChat, queue]
  | step _ hstep ih =>
    rcases step_effect hstep id with ⟨hproc, hsame, _⟩ | ⟨msg, hproc, hp, hq | ⟨hq, _, _⟩⟩
    · rw [hproc, hsame]
      exact ih
    · rw [hproc, hp, hq]
      exact ih.trans (List.sublist_append_left _ _)
    · rw [hproc, hp, hq, ← List.append_assoc]
      exact ih.append (List.Sublist.refl _)

theorem step_empty_key {s t : Sys} (h : Step s t) (h0 : s.chat.clients "" = none) :
    t.chat.clients "" = none := by
  cases h with
  | join args now =>
    simp only [Sys.join, Join]
    by_cases hid : args.ID = ""
    · simp [hid, h0]
    · have hne : ¬("" = args.ID) := fun e => hid e.symm
      cases hreg : s.chat.clients args.ID with
      | some st => simp [hid, hreg, h0]
      | none => simp [hid, hreg, produce_clients, register, hne, h0]
  | send args now => simp [Sys.send, Send_clients, h0]
  | poll args timerFirst =>
    simp only [Sys.poll]
    rcases Poll_cases s.chat args timerFirst with ⟨hc, _⟩ | ⟨st, hid, _, _, hc, _, _⟩
    · rw [hc]
      exact h0
    · have hne : ¬("" = args.ID) := fun e => hid e.symm
      rw [hc]
      simp [setQueue, hne, h0]
  | broadcast _ hb =>
    obtain ⟨msg, rest, _, rfl⟩ := broadcast_some hb
    simp [fanOut, h0]
  | resume m ev hm hsend => exact h0
  | joinUnlocked k now hk hnew =>
    have hne : ¬("" = k) := fun e => hk e.symm
    simp [register, hne, h0]
  | sendChecked args now ht hreg => exact h0
  | recv k st msg rest hk hreg hrecv =>
    have hne : ¬("" = k) := fun e => hk e.symm
    simp [setQueue, hne, h0]

/-- In a reachable state the empty string is not a key of the registry. -/
theorem reach_empty_key {s : Sys} (h : Reachable s) : s.chat.clients "" = none := by
  induction h with
  | init => rfl
  | step _ hstep ih => exact step_empty_key hstep ih

theorem Reachable.join {s : Sys} (h : Reachable s) (args : JoinArgs) (now : Nat) :
    Reachable (s.join args now) :=
  Reachable.step h (Step.join s args now)

theorem Reachable.send {s : Sys} (h : Reachable s) (args : SendArgs) (now : Nat) :
    Reachable (s.send args now) :=
  Reachable.step h (Step.send s args now)

theorem Reachable.poll {s : Sys} (h : Reachable s) (args : PollArgs) (timerFirst : Bool) :
    Reachable (s.poll args timerFirst) :=
  Reachable.step h (Step.poll s args timerFirst)

theorem Reachable.run {s : Sys} (h : Reachable s) : Reachable s.run := by
  unfold Sys.run
  cases hb : s.broadcast with
  | none => exact h
  | some t => exact Reachable.step h (Step.broadcast s t hb)

theorem demoSys_reachable : Reachable demoSys :=
  (((((Reachable.init.join _ _).run).join _ _).run).send _ _).run

theorem demoPolled_reachable : Reachable demoPolled :=
  demoSys_reachable.poll _ _

theorem chatterSys_reachable (n : Nat) : Reachable (chatterSys n) := by
  induction n with
  | zero => exact (((((Reachable.init.join _ _).run).join _ _).run).join _ _).run
  | succ n ih => exact (ih.send _ _).run

theorem fullSys_reachable : Reachable fullSys :=
  ((chatterSys_reachable 40).poll _ _).send _ _

theorem Poll_batch_unexpired_witness :
    ("bob" ≠ "" ∧ (chatterSys 12).chat.clients "bob"
        = some { id := "bob", ch := queue (chatterSys 12).chat "bob" }) ∧
    (queue (chatterSys 12).chat "bob").length = 14 ∧
    (Poll (chatterSys 12).chat { ID := "bob", TimeoutMs := 1000 } true).status = Status.ok ∧
    (Poll (chatterSys 12).chat { ID := "bob", TimeoutMs := 1000 } true).reply.Messages
      = (queue (chatterSys 12).chat "bob").take 10 ∧
    (Poll (chatterSys 12).chat { ID := "bob", TimeoutMs := 1000 } true).reply.Messages.length
      = min (queue (chatterSys 12).chat "bob").length 10 ∧
    (Poll (Poll (chatterSys 12).chat { ID := "bob", TimeoutMs := 1000 } true).chat
        { ID := "bob", TimeoutMs := 0 } true).reply.Messages
      = ((queue (chatterSys 12).chat "bob").drop 10).take 10 := by
  have h := Poll_batch_unexpired (chatterSys 12).chat "bob" 1000 0 true true
    { id := "bob", ch := queue (chatterSys 12).chat "bob" } (by decide) (by decide)
    (by decide) (by decide)
  exact ⟨⟨by decide, by decide⟩, by decide, h.1, h.2.1, h.2.2.1, h.2.2.2.2.2.2.2⟩

/-- C7 fails on the code at `Poll("bob", 9223372036855)` with 14 messages queued for bob:
the timer duration wraps to a negative number of nanoseconds, the timer has expired when
the `select` is reached, and when the `select` picks the timer branch the call returns no
message although 14 are queued, which all stay in the queue; only when it picks the receive
branch does the call return the first ten. -/
theorem Poll_expired_timer :
    (chatterSys 12).chat.clients "bob"
        = some { id := "bob", ch := queue (chatterSys 12).chat "bob" } ∧
      (queue (chatterSys 12).chat "bob").length = 14 ∧
      pollDuration { ID := "bob", TimeoutMs := 9223372036855 } = -9223372036854551616 ∧
      (Poll (chatterSys 12).chat { ID := "bob", TimeoutMs := 9223372036855 } true).status
        = Status.ok ∧
      (Poll (chatterSys 12).chat { ID := "bob", TimeoutMs := 9223372036855 } true
        ).reply.Messages = [] ∧
      (Poll (chatterSys 12).chat { ID := "bob", TimeoutMs := 9223372036855 } true
        ).reply.Messages ≠ (queue (chatterSys 12).chat "bob").take 10 ∧
      queue (Poll (chatterSys 12).chat { ID := "bob", TimeoutMs := 9223372036855 } true).chat
        "bob" = queue (chatterSys 12).chat "bob" ∧
      (Poll (chatterSys 12).chat { ID := "bob", TimeoutMs := 9223372036855 } false
        ).reply.Messages = (queue (chatterSys 12).chat "bob").take 10 := by
  decide

/-! ## No self-echo -/

/-- C6: in every reachable state, no delivery queue of an identity `X` holds a non-system
message whose `From` is `X`, no `Poll` of `X` has returned one, and none is returned by a
`Poll` of `X` now; and a round of the broadcaster that handles a non-system message from `X`
leaves the registry entry of `X`, its delivery queue included, unchanged. -/
theorem no_self_echo (s : Sys) (h : Reachable s) (X : String) :
    (∀ st m, s.chat.clients X = some st → m ∈ st.ch → m.System = false → m.From ≠ X) ∧
    (∀ m, m ∈ s.polled X → m.System = false → m.From ≠ X) ∧
    (∀ timeout timerFirst m,
      m ∈ (Poll s.chat { ID := X, TimeoutMs := timeout } timerFirst).reply.Messages →
      m.System = false → m.From ≠ X) ∧
    (∀ msg rest c, chanRecv s.chat.events = some (msg, rest) → msg.System = false →
      msg.From = X → runBroadcasterStep s.chat = some c →
      c.clients X = s.chat.clients X) := by
  refine ⟨?_, ?_, ?_, ?_⟩
  · intro st m hst hm hsys
    refine reach_no_echo h X m ?_ hsys
    rw [queue_of_some hst]
    exact List.mem_append_right _ hm
  · intro m hm hsys
    exact reach_no_echo h X m (List.mem_append_left _ hm) hsys
  · intro timeout timerFirst m hm hsys
    refine reach_no_echo h X m (List.mem_append_right _ ?_) hsys
    rw [← Poll_queue s.chat { ID := X, TimeoutMs := timeout } timerFirst]
    exact List.mem_append_left _ hm
  · intro msg rest c hrecv hsys hfrom hstep
    simp only [runBroadcasterStep, hrecv, Option.some.injEq] at hstep
    subst hstep
    cases hreg : s.chat.clients X with
    | none => simp [fanOut, hreg]
    | some st => simp [fanOut, hreg, deliver, hfrom, hsys]

theorem no_self_echo_witness :
    Reachable demoSys ∧
      { From := "alice", Text := "hello", Time := 3, System := false } ∈ demoSys.processed ∧
      { From := "alice", Text := "hello", Time := 3, System := false } ∈ queue demoSys.chat "bob" ∧
      { From := "alice", Text := "hello", Time := 3, System := false }
        ∉ queue demoSys.chat "alice" :=
  ⟨demoSys_reachable, by decide, by decide, fun hm =>
    (no_self_echo demoSys demoSys_reachable "alice").1
      { id := "alice", ch := queue demoSys.chat "alice" }
      { From := "alice", Text := "hello", Time := 3, System := false }
      (by decide) hm rfl rfl⟩

/-! ## Drop on a full delivery queue -/

/-- C8: in every reachable state every delivery queue holds at most 32 messages; and when
the broadcaster processes a message there, a client whose queue holds 32 messages keeps its
queue unchanged, while every client with fewer than 32 messages that is not the sender of
an ordinary message gets the message appended to its queue. -/
theorem drop_on_full (s : Sys) (h : Reachable s) :
    (∀ id st, s.chat.clients id = some st → st.ch.length ≤ 32) ∧
    (∀ msg rest c, chanRecv s.chat.events = some (msg, rest) →
      runBroadcasterStep s.chat = some c →
      ∀ id st, s.chat.clients id = some st →
        (st.ch.length = 32 → c.clients id = some st) ∧
        (st.ch.length < 32 → ¬(id = msg.From ∧ msg.System = false) →
          c.clients id = some { id := st.id, ch := st.ch ++ [msg] })) := by
  refine ⟨?_, ?_⟩
  · intro id st hst
    have hb := reach_bound h id
    rwa [queue_of_some hst] at hb
  · intro msg rest c hrecv hstep id st hst
    simp only [runBroadcasterStep, hrecv, Option.some.injEq] at hstep
    subst hstep
    refine ⟨?_, ?_⟩
    · intro hfull
      by_cases hself : id = msg.From ∧ msg.System = false
      · have hd : deliver msg id st = st := by simp [deliver, hself]
        simp [fanOut, hst, hd]
      · have hd : deliver msg id st = st := by
          simp [deliver, hself, trySend, clientCap, hfull]
        simp [fanOut, hst, hd]
    · intro hlt hself
      have hd : deliver msg id st = { id := st.id, ch := st.ch ++ [msg] } := by
        simp [deliver, hself, trySend, clientCap, hlt]
      simp [fanOut, hst, hd]

theorem drop_on_full_witness :
    Reachable fullSys ∧
      (queue fullSys.chat "bob").length = 32 ∧ (queue fullSys.chat "carol").length = 22 ∧
      (fanOut { From := "alice", Text := "more", Time := 50, System := false }
          fullSys.chat.clients) "bob"
        = some { id := "bob", ch := queue fullSys.chat "bob" } ∧
      (fanOut { From := "alice", Text := "more", Time := 50, System := false }
          fullSys.chat.clients) "carol"
        = some { id := "carol", ch := queue fullSys.chat "carol" ++
            [{ From := "alice", Text := "more", Time := 50, System := false }] } := by
  have h := (drop_on_full fullSys fullSys_reachable).2
    { From := "alice", Text := "more", Time := 50, System := false } []
    { clients := fanOut { From := "alice", Text := "more", Time := 50, System := false }
        fullSys.chat.clients, events := [] }
    (by set_option maxRecDepth 1000000 in decide) (by set_option maxRecDepth 1000000 in rfl)
  exact ⟨fullSys_reachable, (by set_option maxRecDepth 1000000 in decide), (by set_option maxRecDepth 1000000 in decide),
    (h "bob" { id := "bob", ch := queue fullSys.chat "bob" } (by set_option maxRecDepth 1000000 in decide)).1 (by set_option maxRecDepth 1000000 in decide),
    (h "carol" { id := "carol", ch := queue fullSys.chat "carol" } (by set_option maxRecDepth 1000000 in decide)).2
      (by set_option maxRecDepth 1000000 in decide) (by decide)⟩

/-! ## Order of the polled stream -/

theorem produce_events {ρ : Type} (c : Chat) (r : ρ) (m : Message) :
    ∃ extra, (produce c r m).chat.events = c.events ++ extra := by
  unfold produce chanSend
  by_cases hlen : c.events.length < eventsCap
  · exact ⟨[m], by simp [hlen]⟩
  · exact ⟨[], by simp [hlen]⟩

theorem Join_events (c : Chat) (args : JoinArgs) (now : Nat) :
    ∃ extra, (Join c args now).chat.events = c.events ++ extra := by
  unfold Join
  by_cases hid : args.ID = ""
  · exact ⟨[], by simp [hid]⟩
  · cases hreg : c.clients args.ID with
    | some st => exact ⟨[], by simp [hid, hreg]⟩
    | none =>
      simp only [hid, hreg, Option.isSome_none, if_false, Bool.false_eq_true]
      exact produce_events (register c args.ID) _ _

theorem Send_events (c : Chat) (args : SendArgs) (now : Nat) :
    ∃ extra, (Send c args now).chat.events = c.events ++ extra := by
  unfold Send
  split
  · exact ⟨[], by simp⟩
  · split
    · exact produce_events c _ _
    · exact ⟨[], by simp⟩

theorem Poll_events (c : Chat) (args : PollArgs) (timerFirst : Bool) :
    (Poll c args timerFirst).chat.events = c.events := by
  rcases Poll_cases c args timerFirst with ⟨hc, _⟩ | ⟨st, _, _, _, hc, _, _⟩
  · rw [hc]
  · rw [hc]
    rfl

/-- No transition removes or reorders what `Sys.enqueued` records: every transition only
appends to it. -/
theorem enqueued_grows {s t : Sys} (h : Step s t) :
    ∃ extra, t.enqueued = s.enqueued ++ extra := by
  cases h with
  | join args now =>
    obtain ⟨extra, he⟩ := Join_events s.chat args now
    exact ⟨extra, by simp [Sys.enqueued, Sys.join, he]⟩
  | send args now =>
    obtain ⟨extra, he⟩ := Send_events s.chat args now
    exact ⟨extra, by simp [Sys.enqueued, Sys.send, he]⟩
  | poll args timerFirst => exact ⟨[], by simp [Sys.enqueued, Sys.poll, Poll_events]⟩
  | broadcast _ hb =>
    obtain ⟨msg, rest, hev, rfl⟩ := broadcast_some hb
    exact ⟨[], by simp [Sys.enqueued, hev]⟩
  | resume m ev hm hsend =>
    refine ⟨[m], ?_⟩
    unfold chanSend at hsend
    split at hsend
    · simp only [Option.some.injEq] at hsend
      simp [Sys.enqueued, ← hsend]
    · cases hsend
  | joinUnlocked k now hk hnew => exact ⟨[], by simp [Sys.enqueued, register]⟩
  | sendChecked args now ht hreg => exact ⟨[], by simp [Sys.enqueued]⟩
  | recv k st msg rest hk hreg hrecv => exact ⟨[], by simp [Sys.enqueued, setQueue]⟩

/-- C9: in every reachable state and for every identity `Y`, the messages returned by the
successive `Poll` calls of `Y`, followed by the current delivery queue of `Y`, form a
subsequence of the events enqueued into the event queue, in enqueue order and each
enqueued event used at most once; the same holds of the part of both sequences that comes
from any single sender. -/
theorem poll_stream_ordered (s : Sys) (h : Reachable s) (Y : String) :
    (s.polled Y ++ queue s.chat Y).Sublist s.enqueued ∧
    ∀ sender : String,
      ((s.polled Y ++ queue s.chat Y).filter (fun m => decide (m.From = sender))).Sublist
        (s.enqueued.filter (fun m => decide (m.From = sender))) := by
  have hsub : (s.polled Y ++ queue s.chat Y).Sublist s.enqueued :=
    (reach_sublist h Y).trans (List.sublist_append_left _ _)
  exact ⟨hsub, fun sender => hsub.filter _⟩

theorem poll_stream_ordered_witness :
    Reachable demoPolled ∧
      demoPolled.polled "bob"
        = [{ From := "bob", Text := "User [bob] joined", Time := 2, System := true },
           { From := "alice", Text := "hello", Time := 3, System := false }] ∧
      (demoPolled.polled "bob" ++ queue demoPolled.chat "bob").Sublist demoPolled.enqueued :=
  ⟨demoPolled_reachable, by decide,
    (poll_stream_ordered demoPolled demoPolled_reachable "bob").1⟩

/-! ## The alice and bob scenario -/

/-- C10 as stated fails: in the scenario `Poll("bob", 1000)` returns two messages, not one,
and `Poll("alice", 1000)` returns more than the system message for bob joining, whatever
the `select` would pick. -/
theorem bob_poll_not_single :
    (Poll (scenario 1 2 3) { ID := "bob", TimeoutMs := 1000 } false).reply.Messages.length = 2 ∧
      (Poll (scenario 1 2 3) { ID := "bob", TimeoutMs := 1000 } false).reply.Messages
        ≠ [{ From := "alice", Text := "hello", Time := 3, System := false }] ∧
      (Poll (scenario 1 2 3) { ID := "alice", TimeoutMs := 1000 } false).reply.Messages
        ≠ [{ From := "bob", Text := "User [bob] joined", Time := 2, System := true }] ∧
      (Poll (scenario 1 2 3) { ID := "bob", TimeoutMs := 1000 } true).reply.Messages.length = 2 ∧
      (Poll (scenario 1 2 3) { ID := "bob", TimeoutMs := 1000 } true).reply.Messages
        ≠ [{ From := "alice", Text := "hello", Time := 3, System := false }] ∧
      (Poll (scenario 1 2 3) { ID := "alice", TimeoutMs := 1000 } true).reply.Messages
        ≠ [{ From := "bob", Text := "User [bob] joined", Time := 2, System := true }] := by
  decide

/-- C10 amended: in the scenario the three calls return OK; `Poll("bob", 1000)` then returns
two messages, the system message for bob joining followed by
`{from: "alice", text: "hello", system: false}`, and `Poll("alice", 1000)`, before or
after that of bob, returns the system messages for alice joining and for bob joining and
not the `"hello"` alice sent herself. -/
theorem scenario_polls (t1 t2 t3 : Nat) (pb pa : Bool) :
    ((Join NewChat { ID := "alice" } t1).status = Status.ok ∧
      (Join (runBroadcaster (Join NewChat { ID := "alice" } t1).chat)
        { ID := "bob" } t2).status = Status.ok ∧
      (Send (runBroadcaster (Join (runBroadcaster (Join NewChat { ID := "alice" } t1).chat)
        { ID := "bob" } t2).chat) { ID := "alice", Text := "hello" } t3).status = Status.ok) ∧
    (Poll (scenario t1 t2 t3) { ID := "bob", TimeoutMs := 1000 } pb).status = Status.ok ∧
    (Poll (scenario t1 t2 t3) { ID := "bob", TimeoutMs := 1000 } pb).reply.Messages
      = [{ From := "bob", Text := "User [bob] joined", Time := t2, System := true },
         { From := "alice", Text := "hello", Time := t3, System := false }] ∧
    (Poll (scenario t1 t2 t3) { ID := "alice", TimeoutMs := 1000 } pa).status = Status.ok ∧
    (Poll (scenario t1 t2 t3) { ID := "alice", TimeoutMs := 1000 } pa).reply.Messages
      = [{ From := "alice", Text := "User [alice] joined", Time := t1, System := true },
         { From := "bob", Text := "User [bob] joined", Time := t2, System := true }] ∧
    (Poll (Poll (scenario t1 t2 t3) { ID := "bob", TimeoutMs := 1000 } pb).chat
        { ID := "alice", TimeoutMs := 1000 } pa).reply.Messages
      = [{ From := "alice", Text := "User [alice] joined", Time := t1, System := true },
         { From := "bob", Text := "User [bob] joined", Time := t2, System := true }] :=
  ⟨⟨rfl, rfl, rfl⟩, rfl, rfl, rfl, rfl, rfl⟩

end RpcChat
